import Mathlib

/-!
Verification of the inventory-settlement core of the order-fulfilment system
(order-service producer, RabbitMQ broker client, inventory-worker settlement
consumer).

The relational store is modelled as association lists keyed by integer ids.
SQL `float64` money columns are idealised as `Rat`; timestamps are dropped,
since no settled property mentions them.  Database statements that can fail
for infrastructural reasons (connection loss, constraint violation, commit
failure) are modelled by a fault-injection record: a field set to `true`
makes the corresponding statement return an unexpected error, exactly where
the Go code checks `err != nil`.  Transactions are modelled by explicit
state passing: the handler works on a copy `tx` of the database and a commit
replaces the database by `tx`; returning without committing is a rollback.
-/

/-- A row of the `products` table (id is the association-list key). -/
structure Product where
  name : String
  price : Rat
  stock : Int
  deriving DecidableEq

/-- The order status column; the schema allows these four values. -/
inductive OrderStatus
  | PENDING
  | CONFIRMED
  | CANCELLED
  | FAILED
  deriving DecidableEq

/-- A row of the `orders` table (id is the association-list key). -/
structure OrderRow where
  userId : Nat
  status : OrderStatus
  totalAmount : Rat
  deriving DecidableEq

/-- A row of the `order_items` table. -/
structure OrderItemRow where
  orderId : Nat
  productId : Nat
  quantity : Int
  price : Rat
  deriving DecidableEq

/-- The relational store.  `nextOrderId` models the serial id returned by
`INSERT INTO orders ... RETURNING id`. -/
structure DB where
  products : List (Nat × Product)
  orders : List (Nat × OrderRow)
  orderItems : List OrderItemRow
  users : List (Nat × String)
  nextOrderId : Nat
  deriving DecidableEq

/-- `SELECT ... WHERE id = k` on an association list: first row whose key
matches, as Go's `QueryRow().Scan` reads the first row. -/
def alookup {α : Type} : List (Nat × α) → Nat → Option α
  | [], _ => none
  | kv :: rest, k => if kv.1 == k then some kv.2 else alookup rest k

/-- Whether `UPDATE ... WHERE id = k` would affect at least one row
(`RowsAffected() ≠ 0`). -/
def hasKey {α : Type} : List (Nat × α) → Nat → Bool
  | [], _ => false
  | kv :: rest, k => kv.1 == k || hasKey rest k

/-- `UPDATE products SET stock = stock - q WHERE id = pid`. -/
def updateStock : List (Nat × Product) → Nat → Int → List (Nat × Product)
  | [], _, _ => []
  | kv :: rest, pid, q =>
    (if kv.1 == pid then (kv.1, { kv.2 with stock := kv.2.stock - q }) else kv)
      :: updateStock rest pid q

/-- `UPDATE orders SET status = st WHERE id = oid` (the code ignores the
affected-row count here, so a missing order id is a silent no-op). -/
def setOrderStatus : List (Nat × OrderRow) → Nat → OrderStatus → List (Nat × OrderRow)
  | [], _, _ => []
  | kv :: rest, oid, st =>
    (if kv.1 == oid then (kv.1, { kv.2 with status := st }) else kv)
      :: setOrderStatus rest oid st

/-- One line item of an `order_placed` message (`OrderItemRequest`). -/
structure OrderItemRequest where
  productId : Nat
  quantity : Int
  deriving DecidableEq

/-- The `order_placed` message payload (timestamp dropped). -/
structure OrderPlacedMessage where
  orderId : Nat
  userId : Nat
  items : List OrderItemRequest
  totalAmount : Rat
  deriving DecidableEq

/-- Outcome events published by the settlement consumer
(`OrderConfirmedMessage` / `OrderFailedMessage`, timestamps dropped). -/
inductive Event
  | confirmed (orderId userId : Nat) (email : String)
  | failed (orderId userId : Nat) (email : String) (reason : String)
  deriving DecidableEq

/-- Fault injection for the database statements and the broker publish
executed by `InventoryConsumer.ProcessOrder` / `failOrder`.  Item-indexed
fields refer to the loop iteration (0-based). -/
structure Faults where
  beginFail : Bool
  stockQueryFail : Nat → Bool
  stockUpdateFail : Nat → Bool
  statusUpdateFail : Bool
  commitFail : Bool
  emailFail : Bool
  publishFail : Bool
  cancelStatusFail : Bool
  cancelCommitFail : Bool
  cancelEmailFail : Bool
  cancelPublishFail : Bool

/-- The fault-free run: every statement succeeds. -/
def noFaults : Faults where
  beginFail := false
  stockQueryFail := fun _ => false
  stockUpdateFail := fun _ => false
  statusUpdateFail := false
  commitFail := false
  emailFail := false
  publishFail := false
  cancelStatusFail := false
  cancelCommitFail := false
  cancelEmailFail := false
  cancelPublishFail := false

/-- Result of one settlement handler execution: the database after the
handler returns (committed state only), the handler's returned error
(`none` = Go `nil`), and the outcome events actually published. -/
structure ProcResult where
  db : DB
  error : Option String
  events : List Event
  deriving DecidableEq

/-- `InventoryConsumer.failOrder`: sets the order to CANCELLED inside the
open transaction, commits, then looks up the user email and publishes the
`order_failed` event.  Every error in this function is only logged (the Go
function returns nothing), so the surrounding handler still returns nil;
an error before the commit leaves the transaction to the deferred rollback,
so the database is unchanged. -/
def failOrder (f : Faults) (db tx : DB) (orderId userId : Nat) (reason : String) : ProcResult :=
  if f.cancelStatusFail then { db := db, error := none, events := [] }
  else
    let tx := { tx with orders := setOrderStatus tx.orders orderId .CANCELLED }
    if f.cancelCommitFail then { db := db, error := none, events := [] }
    else
      let db := tx
      if f.cancelEmailFail then { db := db, error := none, events := [] }
      else
        match alookup db.users userId with
        | none => { db := db, error := none, events := [] }
        | some email =>
          if f.cancelPublishFail then { db := db, error := none, events := [] }
          else { db := db, error := none,
                 events := [Event.failed orderId userId email reason] }

/-- The tail of `ProcessOrder` after the item loop: set the order to
CONFIRMED, commit, look up the user email (a failure here is returned as a
handler error, but the commit already happened), and publish the
`order_confirmed` event (a publish failure is logged and NOT returned:
"Don't return error - order is already confirmed"). -/
def confirmTail (f : Faults) (db : DB) (msg : OrderPlacedMessage) (tx : DB) : ProcResult :=
  if f.statusUpdateFail then
    { db := db, error := some "failed to update order status", events := [] }
  else
    let tx := { tx with orders := setOrderStatus tx.orders msg.orderId .CONFIRMED }
    if f.commitFail then
      { db := db, error := some "failed to commit transaction", events := [] }
    else
      let db := tx
      if f.emailFail then
        { db := db, error := some "failed to send email", events := [] }
      else
        match alookup db.users msg.userId with
        | none => { db := db, error := some "failed to send email", events := [] }
        | some email =>
          if f.publishFail then { db := db, error := none, events := [] }
          else { db := db, error := none,
                 events := [Event.confirmed msg.orderId msg.userId email] }

/-- The per-item loop of `ProcessOrder`: for each item, `SELECT name, stock
... FOR UPDATE`; `sql.ErrNoRows` or insufficient stock diverts to
`failOrder` and the handler returns nil; an unexpected query error, update
error, or zero affected rows is returned as a handler error (rollback);
otherwise the stock is decremented inside the transaction. -/
def processItems (f : Faults) (db : DB) (msg : OrderPlacedMessage) :
    Nat → List OrderItemRequest → DB → ProcResult
  | _, [], tx => confirmTail f db msg tx
  | i, item :: rest, tx =>
    if f.stockQueryFail i then
      { db := db, error := some "failed to check stock", events := [] }
    else
      match alookup tx.products item.productId with
      | none =>
        failOrder f db tx msg.orderId msg.userId
          ("Product #" ++ toString item.productId ++ " not found")
      | some p =>
        if p.stock < item.quantity then
          failOrder f db tx msg.orderId msg.userId
            ("Insufficient stock for " ++ p.name ++ ". Available: " ++ toString p.stock
              ++ ", Requested: " ++ toString item.quantity)
        else if f.stockUpdateFail i then
          { db := db, error := some "failed to update stock", events := [] }
        else if !(hasKey tx.products item.productId) then
          { db := db,
            error := some ("failed to update stock for product #" ++ toString item.productId),
            events := [] }
        else
          processItems f db msg (i + 1) rest
            { tx with products := updateStock tx.products item.productId item.quantity }

/-- `InventoryConsumer.ProcessOrder`: begin a transaction (begin failure is
a handler error) and run the item loop on a transaction-local copy of the
database.  The payload is taken already deserialised; a JSON unmarshal
failure is a handler error before any database access and touches nothing. -/
def ProcessOrder (f : Faults) (msg : OrderPlacedMessage) (db : DB) : ProcResult :=
  if f.beginFail then
    { db := db, error := some "failed to start transaction", events := [] }
  else processItems f db msg 0 msg.items db

/-- The settlement worker processes its queue strictly sequentially
(prefetch = 1): fold `ProcessOrder` over a list of deliveries, each with
its own fault condition. -/
def processSequence (steps : List (Faults × OrderPlacedMessage)) (db : DB) : DB :=
  steps.foldl (fun d fm => (ProcessOrder fm.1 fm.2 d).db) db

/-- Spec-side mirror of one decrement: `stock := stock - quantity` for the
item's product. -/
def applyItem (ps : List (Nat × Product)) (it : OrderItemRequest) : List (Nat × Product) :=
  updateStock ps it.productId it.quantity

/-- Product table after the decrements of a list of items, in order. -/
def stockAfter (ps : List (Nat × Product)) (items : List OrderItemRequest) :
    List (Nat × Product) :=
  items.foldl applyItem ps

/-- The stock check one item faces against product table `ps`: the product
row exists and its (locked) stock is at least the requested quantity. -/
def itemOkB (ps : List (Nat × Product)) (it : OrderItemRequest) : Bool :=
  match alookup ps it.productId with
  | none => false
  | some p => !(p.stock < it.quantity)

/-- All items pass their stock checks sequentially, each against the table
left by the previous items' decrements. -/
def allItemsOk (ps : List (Nat × Product)) : List OrderItemRequest → Bool
  | [] => true
  | it :: rest => itemOkB ps it && allItemsOk (applyItem ps it) rest

/-- The reason string `failOrder` receives for a failing item, given the
product table at the moment of the check. -/
def failReason (ps : List (Nat × Product)) (it : OrderItemRequest) : String :=
  match alookup ps it.productId with
  | none => "Product #" ++ toString it.productId ++ " not found"
  | some p =>
    "Insufficient stock for " ++ p.name ++ ". Available: " ++ toString p.stock
      ++ ", Requested: " ++ toString it.quantity

/-- Terminal order statuses. -/
def terminal (s : OrderStatus) : Bool :=
  s == .CONFIRMED || s == .CANCELLED

/-- Status column of one order. -/
def orderStatus (db : DB) (oid : Nat) : Option OrderStatus :=
  (alookup db.orders oid).map OrderRow.status

/-- Stock column of one product. -/
def productStock (db : DB) (pid : Nat) : Option Int :=
  (alookup db.products pid).map Product.stock

/-- Every product row has non-negative stock. -/
def nonnegStocks (ps : List (Nat × Product)) : Prop :=
  ∀ kv ∈ ps, 0 ≤ kv.2.stock

instance : DecidablePred nonnegStocks := fun ps =>
  inferInstanceAs (Decidable (∀ kv ∈ ps, 0 ≤ kv.2.stock))

/-! ## Broker client (`RabbitMQ.Consume` delivery loop)

`Consume` registers a manual-ack consumer with prefetch 1 and runs a loop:
the handler is invoked on each delivered body; a nil return acknowledges the
message (permanently removing it), a non-nil return rejects it with
`Nack(multiple := false, requeue := true)`, putting it back on the queue to
be redelivered — there is no redelivery ceiling.  The queue is modelled as a
list of pending messages with the next delivery at the head; a requeued
message is redelivered to this sole prefetch-1 consumer. -/

/-- What the loop body does with one delivery, from the handler's return. -/
inductive Disposition
  | ack
  | nackRequeue
  deriving DecidableEq

/-- The acknowledgement decision of `Consume`'s loop body. -/
def handleDelivery {α : Type} (handler : α → Option String) (m : α) : Disposition :=
  match handler m with
  | none => .ack
  | some _ => .nackRequeue

/-- One iteration of `Consume`'s loop on the queue: deliver the head, ack
(remove) on handler success, nack-with-requeue (keep) on handler error. -/
def consumeStep {α : Type} (handler : α → Option String) : List α → List α
  | [] => []
  | m :: rest =>
    match handler m with
    | none => rest
    | some _ => m :: rest

/-! ## Order placement producer (`OrderHandler.CreateOrder`) -/

/-- Fault injection for the producer's database statements and publish. -/
structure OrderFaults where
  beginFail : Bool
  queryFail : Nat → Bool
  insertOrderFail : Bool
  insertItemFail : Nat → Bool
  commitFail : Bool
  publishFail : Bool

/-- The fault-free producer run. -/
def noOrderFaults : OrderFaults where
  beginFail := false
  queryFail := fun _ => false
  insertOrderFail := false
  insertItemFail := fun _ => false
  commitFail := false
  publishFail := false

/-- The `CreateOrderRequest` payload. -/
structure CreateOrderRequest where
  items : List OrderItemRequest
  deriving DecidableEq

/-- Gin binding validation on `CreateOrderRequest`: `items` is required with
at least one element, each item's `product_id` is required (non-zero) and
`quantity` has `min=1`. -/
def bindOk (req : CreateOrderRequest) : Bool :=
  !req.items.isEmpty
    && req.items.all (fun it => it.productId != 0 && decide (1 ≤ it.quantity))

/-- Outcome of the producer's validation loop over the requested items:
`SELECT price, stock FROM products WHERE id = $1` per item, accumulating
`total += price * quantity`; `sql.ErrNoRows` aborts with 400, an unexpected
error with 500. -/
inductive ValRes
  | notFound (pid : Nat)
  | dbError
  | ok (total : Rat)
  deriving DecidableEq

/-- The producer's validation-and-total loop. -/
def computeTotal (f : OrderFaults) (ps : List (Nat × Product)) :
    Nat → Rat → List OrderItemRequest → ValRes
  | _, acc, [] => .ok acc
  | i, acc, it :: rest =>
    if f.queryFail i then .dbError
    else
      match alookup ps it.productId with
      | none => .notFound it.productId
      | some p => computeTotal f ps (i + 1) (acc + p.price * (it.quantity : Rat)) rest

/-- The producer's item-insertion loop: re-reads each item's price (the Go
code ignores the `Scan` error of this second read, leaving price 0.0 if the
row vanished) and inserts an `order_items` row; an insert error aborts with
500 (`none`). -/
def insertRows (f : OrderFaults) (ps : List (Nat × Product)) (orderId : Nat) :
    Nat → List OrderItemRequest → Option (List OrderItemRow)
  | _, [] => some []
  | i, it :: rest =>
    let price := ((alookup ps it.productId).map Product.price).getD 0
    if f.insertItemFail i then none
    else
      match insertRows f ps orderId (i + 1) rest with
      | none => none
      | some rows => some (⟨orderId, it.productId, it.quantity, price⟩ :: rows)

/-- Result of one `CreateOrder` request: database after the handler
(committed state only), HTTP status and success flag of the JSON response,
and the placement messages actually published. -/
structure CreateResult where
  db : DB
  status : Nat
  success : Bool
  published : List OrderPlacedMessage
  deriving DecidableEq

/-- `OrderHandler.CreateOrder`: bind the request, begin a transaction,
validate every referenced product and compute the total, insert the PENDING
order header and its lines, commit, and only then publish the
`order_placed` message; any error before the commit rolls the transaction
back (database unchanged), and a publish failure after the commit leaves
the committed PENDING order in place and answers 500. -/
def CreateOrder (f : OrderFaults) (userId : Nat) (req : CreateOrderRequest) (db : DB) :
    CreateResult :=
  if !(bindOk req) then { db := db, status := 400, success := false, published := [] }
  else if f.beginFail then { db := db, status := 500, success := false, published := [] }
  else
    match computeTotal f db.products 0 0 req.items with
    | .notFound _ => { db := db, status := 400, success := false, published := [] }
    | .dbError => { db := db, status := 500, success := false, published := [] }
    | .ok total =>
      if f.insertOrderFail then { db := db, status := 500, success := false, published := [] }
      else
        let orderId := db.nextOrderId
        match insertRows f db.products orderId 0 req.items with
        | none => { db := db, status := 500, success := false, published := [] }
        | some rows =>
          let tx : DB :=
            { db with
              orders := db.orders ++ [(orderId, ⟨userId, .PENDING, total⟩)]
              orderItems := db.orderItems ++ rows
              nextOrderId := orderId + 1 }
          if f.commitFail then { db := db, status := 500, success := false, published := [] }
          else if f.publishFail then
            { db := tx, status := 500, success := false, published := [] }
          else
            { db := tx, status := 202, success := true,
              published := [⟨orderId, userId, req.items, total⟩] }

/-- Spec-side mirror of a request's total:
sum of price-at-placement × quantity. -/
def orderTotal (ps : List (Nat × Product)) (items : List OrderItemRequest) : Rat :=
  items.foldl
    (fun acc it => acc + (((alookup ps it.productId).map Product.price).getD 0) * (it.quantity : Rat))
    0

/-- Spec-side mirror of the inserted order lines: one row per requested
item, with the price snapshotted from the product table. -/
def lineRows (ps : List (Nat × Product)) (orderId : Nat) (items : List OrderItemRequest) :
    List OrderItemRow :=
  items.map
    (fun it => ⟨orderId, it.productId, it.quantity, ((alookup ps it.productId).map Product.price).getD 0⟩)

/-! ## Concrete stores and messages for counterexamples and witnesses -/

/-- A store with two products, one PENDING order and its user. -/
def dbTwoProducts : DB where
  products := [(1, ⟨"Laptop", 1500, 5⟩), (2, ⟨"Mouse", 25, 10⟩)]
  orders := [(1, ⟨7, .PENDING, 4000⟩)]
  orderItems := []
  users := [(7, "alice@shop.example")]
  nextOrderId := 2

/-- A store whose order 1 is already CONFIRMED while product 1 is out of
stock: the state a redelivery meets after an earlier success consumed the
stock. -/
def dbConfirmedNoStock : DB where
  products := [(1, ⟨"Laptop", 1500, 0⟩)]
  orders := [(1, ⟨7, .CONFIRMED, 3000⟩)]
  orderItems := []
  users := [(7, "alice@shop.example")]
  nextOrderId := 2

/-- A store whose order 1 is already CONFIRMED with stock left: the state a
redelivery meets when the first execution erred after its commit. -/
def dbConfirmedStockLeft : DB where
  products := [(1, ⟨"Laptop", 1500, 3⟩)]
  orders := [(1, ⟨7, .CONFIRMED, 3000⟩)]
  orderItems := []
  users := [(7, "alice@shop.example")]
  nextOrderId := 2

/-- Placement message for order 1: two units of product 1. -/
def msgTwoOfOne : OrderPlacedMessage where
  orderId := 1
  userId := 7
  items := [⟨1, 2⟩]
  totalAmount := 3000

/-- Placement message for order 1: two units of product 1, then a hundred
units of product 2 (the spec's partial-decrement scenario). -/
def msgPartialFail : OrderPlacedMessage where
  orderId := 1
  userId := 7
  items := [⟨1, 2⟩, ⟨2, 100⟩]
  totalAmount := 5500

/-! ## Association-list lemmas -/

theorem alookup_hasKey {α : Type} {l : List (Nat × α)} {k : Nat} {v : α}
    (h : alookup l k = some v) : hasKey l k = true := by
  induction l with
  | nil => simp [alookup] at h
  | cons kv rest ih =>
    by_cases hk : kv.1 = k
    · simp [hasKey, hk]
    · simp only [alookup, beq_iff_eq, if_neg hk] at h
      simp [hasKey, hk, ih h]

theorem hasKey_false_of_not_mem {α : Type} {l : List (Nat × α)} {k : Nat}
    (h : k ∉ l.map Prod.fst) : hasKey l k = false := by
  induction l with
  | nil => rfl
  | cons kv rest ih =>
    simp only [List.map_cons, List.mem_cons, not_or] at h
    have h1 : ¬ kv.1 = k := fun hc => h.1 hc.symm
    simp [hasKey, h1, ih h.2]

theorem updateStock_keys (ps : List (Nat × Product)) (pid : Nat) (q : Int) :
    (updateStock ps pid q).map Prod.fst = ps.map Prod.fst := by
  induction ps with
  | nil => rfl
  | cons kv rest ih =>
    by_cases h : kv.1 = pid <;> simp [updateStock, h, ih]

theorem setOrderStatus_keys (os : List (Nat × OrderRow)) (oid : Nat) (st : OrderStatus) :
    (setOrderStatus os oid st).map Prod.fst = os.map Prod.fst := by
  induction os with
  | nil => rfl
  | cons kv rest ih =>
    by_cases h : kv.1 = oid <;> simp [setOrderStatus, h, ih]

theorem updateStock_no_key (ps : List (Nat × Product)) (pid : Nat) (q : Int)
    (h : hasKey ps pid = false) : updateStock ps pid q = ps := by
  induction ps with
  | nil => rfl
  | cons kv rest ih =>
    simp only [hasKey, Bool.or_eq_false_iff, beq_eq_false_iff_ne] at h
    simp [updateStock, h.1, ih h.2]

theorem alookup_setOrderStatus_self (os : List (Nat × OrderRow)) (oid : Nat) (st : OrderStatus) :
    alookup (setOrderStatus os oid st) oid
      = (alookup os oid).map (fun r => { r with status := st }) := by
  induction os with
  | nil => rfl
  | cons kv rest ih =>
    by_cases h : kv.1 = oid <;> simp [setOrderStatus, alookup, h, ih]

theorem alookup_setOrderStatus_ne (os : List (Nat × OrderRow)) (oid k : Nat)
    (st : OrderStatus) (h : k ≠ oid) :
    alookup (setOrderStatus os oid st) k = alookup os k := by
  induction os with
  | nil => rfl
  | cons kv rest ih =>
    by_cases ho : kv.1 = oid
    · have hk : ¬ kv.1 = k := fun hc => h (hc ▸ ho)
      simp [setOrderStatus, alookup, ho, hk, Ne.symm h, ih]
    · simp [setOrderStatus, alookup, ho, ih]

theorem alookup_append_fresh {α : Type} (l : List (Nat × α)) (k : Nat) (v : α)
    (h : hasKey l k = false) : alookup (l ++ [(k, v)]) k = some v := by
  induction l with
  | nil => simp [alookup]
  | cons kv rest ih =>
    simp only [hasKey, Bool.or_eq_false_iff, beq_eq_false_iff_ne] at h
    simp [alookup, h.1, ih h.2]

theorem nonneg_updateStock {ps : List (Nat × Product)} {pid : Nat} {q : Int} {p : Product}
    (hnd : (ps.map Prod.fst).Nodup) (hl : alookup ps pid = some p)
    (hq : q ≤ p.stock) (h0 : nonnegStocks ps) : nonnegStocks (updateStock ps pid q) := by
  induction ps with
  | nil => simp [updateStock, nonnegStocks]
  | cons kv rest ih =>
    simp only [List.map_cons, List.nodup_cons] at hnd
    by_cases hk : kv.1 = pid
    · simp only [alookup, beq_iff_eq, if_pos hk, Option.some.injEq] at hl
      have hrest : updateStock rest pid q = rest :=
        updateStock_no_key rest pid q (hasKey_false_of_not_mem (hk ▸ hnd.1))
      intro kv2 hm
      simp only [updateStock, beq_iff_eq, if_pos hk, hrest, List.mem_cons] at hm
      rcases hm with rfl | hm
      · exact sub_nonneg.mpr (hl.symm ▸ hq)
      · exact h0 kv2 (List.mem_cons_of_mem kv hm)
    · simp only [alookup, beq_iff_eq, if_neg hk] at hl
      have h0r : nonnegStocks rest := fun kv2 hm => h0 kv2 (List.mem_cons_of_mem kv hm)
      intro kv2 hm
      simp only [updateStock, beq_iff_eq, if_neg hk, List.mem_cons] at hm
      rcases hm with rfl | hm
      · exact h0 _ (List.mem_cons_self _ _)
      · exact ih hnd.2 hl h0r kv2 hm

/-! ## Structural lemmas about the settlement handler -/

theorem failOrder_error (f : Faults) (db tx : DB) (oid uid : Nat) (reason : String) :
    (failOrder f db tx oid uid reason).error = none := by
  unfold failOrder
  by_cases h1 : f.cancelStatusFail
  · simp [h1]
  · by_cases h2 : f.cancelCommitFail
    · simp [h1, h2]
    · by_cases h3 : f.cancelEmailFail
      · simp [h1, h2, h3]
      · rcases heq : alookup tx.users uid with _ | em
        · simp [h1, h2, h3, heq]
        · by_cases h4 : f.cancelPublishFail <;> simp [h1, h2, h3, h4, heq]

theorem failOrder_db (f : Faults) (db tx : DB) (oid uid : Nat) (reason : String) :
    (failOrder f db tx oid uid reason).db = db
    ∨ (failOrder f db tx oid uid reason).db
        = { tx with orders := setOrderStatus tx.orders oid .CANCELLED } := by
  unfold failOrder
  by_cases h1 : f.cancelStatusFail
  · simp [h1]
  · by_cases h2 : f.cancelCommitFail
    · simp [h1, h2]
    · by_cases h3 : f.cancelEmailFail
      · simp [h1, h2, h3]
      · rcases heq : alookup tx.users uid with _ | em
        · simp [h1, h2, h3, heq]
        · by_cases h4 : f.cancelPublishFail <;> simp [h1, h2, h3, h4, heq]

theorem confirmTail_db (f : Faults) (db : DB) (msg : OrderPlacedMessage) (tx : DB) :
    (confirmTail f db msg tx).db = db
    ∨ (confirmTail f db msg tx).db
        = { tx with orders := setOrderStatus tx.orders msg.orderId .CONFIRMED } := by
  unfold confirmTail
  by_cases h1 : f.statusUpdateFail
  · simp [h1]
  · by_cases h2 : f.commitFail
    · simp [h1, h2]
    · by_cases h3 : f.emailFail
      · simp [h1, h2, h3]
      · rcases heq : alookup tx.users msg.userId with _ | em
        · simp [h1, h2, h3, heq]
        · by_cases h4 : f.publishFail <;> simp [h1, h2, h3, h4, heq]

theorem confirmTail_error_db (f : Faults) (db : DB) (msg : OrderPlacedMessage) (tx : DB)
    (e : String) (he : (confirmTail f db msg tx).error = some e)
    (hne : e ≠ "failed to send email") : (confirmTail f db msg tx).db = db := by
  unfold confirmTail at he ⊢
  by_cases h1 : f.statusUpdateFail
  · simp [h1]
  · by_cases h2 : f.commitFail
    · simp [h1, h2]
    · by_cases h3 : f.emailFail
      · simp [h1, h2, h3] at he
        exact absurd he.symm hne
      · rcases heq : alookup tx.users msg.userId with _ | em
        · simp [h1, h2, h3, heq] at he
          exact absurd he.symm hne
        · by_cases h4 : f.publishFail <;> simp [h1, h2, h3, h4, heq] at he

/-- When every item passes its stock check (each against the table left by
the previous decrements), the item loop runs to completion, its transaction
carrying exactly the cumulative decrements, and hands over to the
CONFIRMED/commit/publish tail. -/
theorem processItems_ok (f : Faults) (db : DB) (msg : OrderPlacedMessage)
    (hq : ∀ j, f.stockQueryFail j = false) (hu : ∀ j, f.stockUpdateFail j = false)
    (items : List OrderItemRequest) :
    ∀ (i : Nat) (tx : DB), allItemsOk tx.products items = true →
      processItems f db msg i items tx
        = confirmTail f db msg { tx with products := stockAfter tx.products items } := by
  induction items with
  | nil => intro i tx _; rfl
  | cons it rest ih =>
    intro i tx h
    simp only [allItemsOk, Bool.and_eq_true] at h
    obtain ⟨h1, h2⟩ := h
    rcases heq : alookup tx.products it.productId with _ | p
    · rw [itemOkB, heq] at h1; cases h1
    · have hlt : ¬(p.stock < it.quantity) := by
        rw [itemOkB, heq] at h1; simpa using h1
      have hkey := alookup_hasKey heq
      simp only [processItems, hq i, heq, hlt, hu i, hkey, Bool.false_eq_true, if_false,
        Bool.not_true, if_neg]
      exact ih (i + 1) _ h2

/-- When a prefix of items passes its checks and the next item fails
(missing product or insufficient locked stock), the item loop hands the
transaction — carrying exactly the prefix decrements — to `failOrder` with
the reason describing the failing item. -/
theorem processItems_fail (f : Faults) (db : DB) (msg : OrderPlacedMessage)
    (hq : ∀ j, f.stockQueryFail j = false) (hu : ∀ j, f.stockUpdateFail j = false)
    (good : List OrderItemRequest) :
    ∀ (i : Nat) (tx : DB) (bad : OrderItemRequest) (rest : List OrderItemRequest),
      allItemsOk tx.products good = true →
      itemOkB (stockAfter tx.products good) bad = false →
      processItems f db msg i (good ++ bad :: rest) tx
        = failOrder f db { tx with products := stockAfter tx.products good }
            msg.orderId msg.userId (failReason (stockAfter tx.products good) bad) := by
  induction good with
  | nil =>
    intro i tx bad rest _ hbad
    rcases heq : alookup tx.products bad.productId with _ | p
    · simp only [List.nil_append, processItems, hq i, Bool.false_eq_true, if_false, heq]
      simp [failReason, stockAfter, heq]
    · have hlt : p.stock < bad.quantity := by
        rw [itemOkB] at hbad
        simp only [stockAfter, List.foldl_nil] at hbad
        rw [heq] at hbad
        simpa using hbad
      simp only [List.nil_append, processItems, hq i, Bool.false_eq_true, if_false, heq, hlt,
        if_pos]
      simp [failReason, stockAfter, heq, hlt]
  | cons it restGood ih =>
    intro i tx bad rest hgood hbad
    simp only [allItemsOk, Bool.and_eq_true] at hgood
    obtain ⟨h1, h2⟩ := hgood
    rcases heq : alookup tx.products it.productId with _ | p
    · rw [itemOkB, heq] at h1; cases h1
    · have hlt : ¬(p.stock < it.quantity) := by
        rw [itemOkB, heq] at h1; simpa using h1
      have hkey := alookup_hasKey heq
      simp only [List.cons_append, processItems, hq i, heq, hlt, hu i, hkey,
        Bool.false_eq_true, if_false, Bool.not_true, if_neg]
      exact ih (i + 1) _ bad rest h2 hbad

/-- Whatever happens in the item loop, the orders table comes out either
untouched or with exactly one status write — to CONFIRMED or to CANCELLED —
for the message's order id. -/
theorem processItems_orders (f : Faults) (db : DB) (msg : OrderPlacedMessage)
    (items : List OrderItemRequest) :
    ∀ (i : Nat) (tx : DB), tx.orders = db.orders →
      ((processItems f db msg i items tx).db.orders = db.orders
       ∨ (processItems f db msg i items tx).db.orders
           = setOrderStatus db.orders msg.orderId .CONFIRMED
       ∨ (processItems f db msg i items tx).db.orders
           = setOrderStatus db.orders msg.orderId .CANCELLED) := by
  induction items with
  | nil =>
    intro i tx htx
    have hred : processItems f db msg i [] tx = confirmTail f db msg tx := rfl
    rcases confirmTail_db f db msg tx with h | h
    · left; rw [hred, h]
    · right; left; rw [hred, h]; simpa using congrArg (setOrderStatus · msg.orderId .CONFIRMED) htx
  | cons it rest ih =>
    intro i tx htx
    by_cases hqf : f.stockQueryFail i
    · left; simp [processItems, hqf]
    · rcases heq : alookup tx.products it.productId with _ | p
      · have hred : processItems f db msg i (it :: rest) tx
            = failOrder f db tx msg.orderId msg.userId
                ("Product #" ++ toString it.productId ++ " not found") := by
          simp [processItems, hqf, heq]
        rcases failOrder_db f db tx msg.orderId msg.userId _ with h | h
        · left; rw [hred, h]
        · right; right; rw [hred, h]
          simpa using congrArg (setOrderStatus · msg.orderId .CANCELLED) htx
      · by_cases hlt : p.stock < it.quantity
        · have hred : processItems f db msg i (it :: rest) tx
              = failOrder f db tx msg.orderId msg.userId
                  ("Insufficient stock for " ++ p.name ++ ". Available: " ++ toString p.stock
                    ++ ", Requested: " ++ toString it.quantity) := by
            simp [processItems, hqf, heq, hlt]
          rcases failOrder_db f db tx msg.orderId msg.userId _ with h | h
          · left; rw [hred, h]
          · right; right; rw [hred, h]
            simpa using congrArg (setOrderStatus · msg.orderId .CANCELLED) htx
        · by_cases huf : f.stockUpdateFail i
          · left; simp [processItems, hqf, heq, hlt, huf]
          · have hkey := alookup_hasKey heq
            have hred : processItems f db msg i (it :: rest) tx
                = processItems f db msg (i + 1) rest
                    { tx with products := updateStock tx.products it.productId it.quantity } := by
              simp [processItems, hqf, heq, hlt, huf, hkey]
            rw [hred]
            exact ih (i + 1) _ htx

/-- Any handler error other than the post-commit email error leaves the
store untouched: the open transaction is rolled back. -/
theorem processItems_error_db (f : Faults) (db : DB) (msg : OrderPlacedMessage)
    (items : List OrderItemRequest) :
    ∀ (i : Nat) (tx : DB) (e : String),
      (processItems f db msg i items tx).error = some e → e ≠ "failed to send email" →
      (processItems f db msg i items tx).db = db := by
  induction items with
  | nil => intro i tx e he hne; exact confirmTail_error_db f db msg tx e he hne
  | cons it rest ih =>
    intro i tx e he hne
    by_cases hqf : f.stockQueryFail i
    · simp [processItems, hqf]
    · rcases heq : alookup tx.products it.productId with _ | p
      · have hred : processItems f db msg i (it :: rest) tx
            = failOrder f db tx msg.orderId msg.userId
                ("Product #" ++ toString it.productId ++ " not found") := by
          simp [processItems, hqf, heq]
        rw [hred, failOrder_error] at he; cases he
      · by_cases hlt : p.stock < it.quantity
        · have hred : processItems f db msg i (it :: rest) tx
              = failOrder f db tx msg.orderId msg.userId
                  ("Insufficient stock for " ++ p.name ++ ". Available: " ++ toString p.stock
                    ++ ", Requested: " ++ toString it.quantity) := by
            simp [processItems, hqf, heq, hlt]
          rw [hred, failOrder_error] at he; cases he
        · by_cases huf : f.stockUpdateFail i
          · simp [processItems, hqf, heq, hlt, huf]
          · have hkey := alookup_hasKey heq
            have hred : processItems f db msg i (it :: rest) tx
                = processItems f db msg (i + 1) rest
                    { tx with products := updateStock tx.products it.productId it.quantity } := by
              simp [processItems, hqf, heq, hlt, huf, hkey]
            rw [hred] at he ⊢
            exact ih (i + 1) _ e he hne

/-- The item loop only rewrites stock values: the set (and order) of product
ids in the table is invariant. -/
theorem processItems_keys (f : Faults) (db : DB) (msg : OrderPlacedMessage)
    (items : List OrderItemRequest) :
    ∀ (i : Nat) (tx : DB), tx.products.map Prod.fst = db.products.map Prod.fst →
      (processItems f db msg i items tx).db.products.map Prod.fst
        = db.products.map Prod.fst := by
  induction items with
  | nil =>
    intro i tx htx
    have hred : processItems f db msg i [] tx = confirmTail f db msg tx := rfl
    rcases confirmTail_db f db msg tx with h | h <;> rw [hred, h]
    exact htx
  | cons it rest ih =>
    intro i tx htx
    by_cases hqf : f.stockQueryFail i
    · simp [processItems, hqf]
    · rcases heq : alookup tx.products it.productId with _ | p
      · have hred : processItems f db msg i (it :: rest) tx
            = failOrder f db tx msg.orderId msg.userId
                ("Product #" ++ toString it.productId ++ " not found") := by
          simp [processItems, hqf, heq]
        rcases failOrder_db f db tx msg.orderId msg.userId _ with h | h <;> rw [hred, h]
        exact htx
      · by_cases hlt : p.stock < it.quantity
        · have hred : processItems f db msg i (it :: rest) tx
              = failOrder f db tx msg.orderId msg.userId
                  ("Insufficient stock for " ++ p.name ++ ". Available: " ++ toString p.stock
                    ++ ", Requested: " ++ toString it.quantity) := by
            simp [processItems, hqf, heq, hlt]
          rcases failOrder_db f db tx msg.orderId msg.userId _ with h | h <;> rw [hred, h]
          exact htx
        · by_cases huf : f.stockUpdateFail i
          · simp [processItems, hqf, heq, hlt, huf]
          · have hkey := alookup_hasKey heq
            have hred : processItems f db msg i (it :: rest) tx
                = processItems f db msg (i + 1) rest
                    { tx with products := updateStock tx.products it.productId it.quantity } := by
              simp [processItems, hqf, heq, hlt, huf, hkey]
            rw [hred]
            exact ih (i + 1) _ (by rw [updateStock_keys]; exact htx)

/-- Every decrement in the item loop is guarded by the in-transaction stock
check, so non-negative stocks stay non-negative on every exit path. -/
theorem processItems_nonneg (f : Faults) (db : DB) (msg : OrderPlacedMessage)
    (items : List OrderItemRequest) :
    ∀ (i : Nat) (tx : DB), (tx.products.map Prod.fst).Nodup →
      nonnegStocks tx.products → nonnegStocks db.products →
      nonnegStocks (processItems f db msg i items tx).db.products := by
  induction items with
  | nil =>
    intro i tx _ htx hdb
    have hred : processItems f db msg i [] tx = confirmTail f db msg tx := rfl
    rcases confirmTail_db f db msg tx with h | h <;> rw [hred, h]
    · exact hdb
    · exact htx
  | cons it rest ih =>
    intro i tx hnd htx hdb
    by_cases hqf : f.stockQueryFail i
    · simpa [processItems, hqf] using hdb
    · rcases heq : alookup tx.products it.productId with _ | p
      · have hred : processItems f db msg i (it :: rest) tx
            = failOrder f db tx msg.orderId msg.userId
                ("Product #" ++ toString it.productId ++ " not found") := by
          simp [processItems, hqf, heq]
        rcases failOrder_db f db tx msg.orderId msg.userId _ with h | h <;> rw [hred, h]
        · exact hdb
        · exact htx
      · by_cases hlt : p.stock < it.quantity
        · have hred : processItems f db msg i (it :: rest) tx
              = failOrder f db tx msg.orderId msg.userId
                  ("Insufficient stock for " ++ p.name ++ ". Available: " ++ toString p.stock
                    ++ ", Requested: " ++ toString it.quantity) := by
            simp [processItems, hqf, heq, hlt]
          rcases failOrder_db f db tx msg.orderId msg.userId _ with h | h <;> rw [hred, h]
          · exact hdb
          · exact htx
        · by_cases huf : f.stockUpdateFail i
          · simpa [processItems, hqf, heq, hlt, huf] using hdb
          · have hkey := alookup_hasKey heq
            have hred : processItems f db msg i (it :: rest) tx
                = processItems f db msg (i + 1) rest
                    { tx with products := updateStock tx.products it.productId it.quantity } := by
              simp [processItems, hqf, heq, hlt, huf, hkey]
            rw [hred]
            exact ih (i + 1) _
              (by rw [updateStock_keys]; exact hnd)
              (nonneg_updateStock hnd heq (Int.not_lt.mp hlt) htx) hdb

/-- `ProcessOrder` on a message every item of which passes its checks
reduces to the CONFIRMED/commit/publish tail over the fully decremented
transaction. -/
theorem ProcessOrder_ok (f : Faults) (msg : OrderPlacedMessage) (db : DB)
    (hb : f.beginFail = false) (hq : ∀ j, f.stockQueryFail j = false)
    (hu : ∀ j, f.stockUpdateFail j = false)
    (hok : allItemsOk db.products msg.items = true) :
    ProcessOrder f msg db
      = confirmTail f db msg { db with products := stockAfter db.products msg.items } := by
  simp only [ProcessOrder, hb, Bool.false_eq_true, if_false]
  exact processItems_ok f db msg hq hu msg.items 0 db hok

/-- `ProcessOrder` on a message whose first failing item is `bad` reduces to
`failOrder` over the prefix-decremented transaction, with the matching
reason. -/
theorem ProcessOrder_fail (f : Faults) (msg : OrderPlacedMessage) (db : DB)
    (good : List OrderItemRequest) (bad : OrderItemRequest) (rest : List OrderItemRequest)
    (hitems : msg.items = good ++ bad :: rest)
    (hb : f.beginFail = false) (hq : ∀ j, f.stockQueryFail j = false)
    (hu : ∀ j, f.stockUpdateFail j = false)
    (hgood : allItemsOk db.products good = true)
    (hbad : itemOkB (stockAfter db.products good) bad = false) :
    ProcessOrder f msg db
      = failOrder f db { db with products := stockAfter db.products good }
          msg.orderId msg.userId (failReason (stockAfter db.products good) bad) := by
  simp only [ProcessOrder, hb, Bool.false_eq_true, if_false, hitems]
  exact processItems_fail f db msg hq hu good 0 db bad rest hgood hbad

/-- A single status write of a terminal status keeps every existing order's
status inside the terminal set. -/
theorem terminal_after_setOrderStatus {os : List (Nat × OrderRow)} {oid : Nat} {row : OrderRow}
    (h : alookup os oid = some row) (ht : terminal row.status = true)
    (k : Nat) (stNew : OrderStatus) (hnew : terminal stNew = true) :
    ∃ st2, (alookup (setOrderStatus os k stNew) oid).map OrderRow.status = some st2
      ∧ terminal st2 = true := by
  by_cases hk : oid = k
  · subst hk
    rw [alookup_setOrderStatus_self, h]
    exact ⟨stNew, rfl, hnew⟩
  · rw [alookup_setOrderStatus_ne os k oid stNew hk, h]
    exact ⟨row.status, rfl, ht⟩

/-! ## Claims -/

/-- C1 counterexample: the claim "once an order's status is CONFIRMED or
CANCELLED, no subsequent handler execution changes that order's status
again" is false.  Order 1 is CONFIRMED, the stock of product 1 has since
been consumed, and redelivering the placement message makes `ProcessOrder`
run the stock check afresh (it never reads the current status), fail it,
and flip the order to CANCELLED. -/
theorem C1_counterexample :
    orderStatus dbConfirmedNoStock 1 = some .CONFIRMED
    ∧ orderStatus (ProcessOrder noFaults msgTwoOfOne dbConfirmedNoStock).db 1
        = some .CANCELLED := by
  decide

/-- C1 (amended): once an order's status is terminal it remains in the
terminal set {CONFIRMED, CANCELLED} under every further `ProcessOrder` or
`failOrder` execution, with any fault condition; but the handler may flip
one terminal status to the other, since it never inspects the current
status. -/
theorem C1_terminal_set_preserved (f : Faults) (msg : OrderPlacedMessage) (db : DB)
    (oid : Nat) (st : OrderStatus)
    (h : orderStatus db oid = some st) (ht : terminal st = true) :
    (∃ st2, orderStatus (ProcessOrder f msg db).db oid = some st2 ∧ terminal st2 = true)
    ∧ (∀ (tx : DB) (oid2 uid : Nat) (reason : String), tx.orders = db.orders →
        ∃ st3, orderStatus (failOrder f db tx oid2 uid reason).db oid = some st3
          ∧ terminal st3 = true) := by
  obtain ⟨row, hrow, hst⟩ : ∃ row, alookup db.orders oid = some row ∧ row.status = st := by
    unfold orderStatus at h
    rcases hl : alookup db.orders oid with _ | row
    · rw [hl] at h; cases h
    · rw [hl] at h
      exact ⟨row, rfl, by simpa using h⟩
  have htrow : terminal row.status = true := by rw [hst]; exact ht
  constructor
  · by_cases hb : f.beginFail
    · refine ⟨st, ?_, ht⟩
      simp [ProcessOrder, hb, orderStatus, hrow, hst]
    · have hred : ProcessOrder f msg db = processItems f db msg 0 msg.items db := by
        simp [ProcessOrder, hb]
      rw [hred]
      rcases processItems_orders f db msg msg.items 0 db rfl with h2 | h2 | h2
      · exact ⟨st, by simp [orderStatus, h2, hrow, hst], ht⟩
      · obtain ⟨st2, hs2, ht2⟩ :=
          terminal_after_setOrderStatus hrow htrow msg.orderId .CONFIRMED (by decide)
        exact ⟨st2, by unfold orderStatus; rw [h2]; exact hs2, ht2⟩
      · obtain ⟨st2, hs2, ht2⟩ :=
          terminal_after_setOrderStatus hrow htrow msg.orderId .CANCELLED (by decide)
        exact ⟨st2, by unfold orderStatus; rw [h2]; exact hs2, ht2⟩
  · intro tx oid2 uid reason htx
    rcases failOrder_db f db tx oid2 uid reason with h2 | h2
    · exact ⟨st, by simp [orderStatus, h2, hrow, hst], ht⟩
    · obtain ⟨st2, hs2, ht2⟩ :=
        terminal_after_setOrderStatus hrow htrow oid2 .CANCELLED (by decide)
      refine ⟨st2, ?_, ht2⟩
      unfold orderStatus
      rw [h2]
      simpa [htx] using hs2

/-- C1 witness: instantiating the amended theorem at the CONFIRMED order of
the counterexample store. -/
theorem C1_witness :
    ∃ st2, orderStatus (ProcessOrder noFaults msgTwoOfOne dbConfirmedNoStock).db 1 = some st2
      ∧ terminal st2 = true :=
  (C1_terminal_set_preserved noFaults msgTwoOfOne dbConfirmedNoStock 1 .CONFIRMED
    (by decide) (by decide)).1

/-- C2: when the first failing item `bad` follows a prefix `good` of items
that all pass their in-transaction stock checks, `ProcessOrder` commits
exactly the prefix decrements together with the CANCELLED status in the
same transaction, publishes one `order_failed` event carrying the reason
naming the failing product (insufficient stock with available and requested
quantities, or not found), and returns nil so the message is not
redelivered. -/
theorem C2_failure_path (f : Faults) (msg : OrderPlacedMessage) (db : DB)
    (good : List OrderItemRequest) (bad : OrderItemRequest) (rest : List OrderItemRequest)
    (email : String) (row : OrderRow)
    (hitems : msg.items = good ++ bad :: rest)
    (hb : f.beginFail = false) (hq : ∀ j, f.stockQueryFail j = false)
    (hu : ∀ j, f.stockUpdateFail j = false)
    (hcs : f.cancelStatusFail = false) (hcc : f.cancelCommitFail = false)
    (hce : f.cancelEmailFail = false) (hcp : f.cancelPublishFail = false)
    (hgood : allItemsOk db.products good = true)
    (hbad : itemOkB (stockAfter db.products good) bad = false)
    (hemail : alookup db.users msg.userId = some email)
    (horder : alookup db.orders msg.orderId = some row) :
    (ProcessOrder f msg db).db
      = { db with products := stockAfter db.products good,
                  orders := setOrderStatus db.orders msg.orderId .CANCELLED }
    ∧ (ProcessOrder f msg db).error = none
    ∧ (ProcessOrder f msg db).events
        = [Event.failed msg.orderId msg.userId email
            (failReason (stockAfter db.products good) bad)]
    ∧ orderStatus (ProcessOrder f msg db).db msg.orderId = some .CANCELLED := by
  rw [ProcessOrder_fail f msg db good bad rest hitems hb hq hu hgood hbad]
  unfold failOrder
  simp only [hcs, hcc, hce, hcp, Bool.false_eq_true, if_false]
  refine ⟨?_, ?_, ?_, ?_⟩
  · simp [hemail]
  · simp [hemail]
  · simp [hemail]
  · simp [hemail, orderStatus, alookup_setOrderStatus_self, horder]

/-- C2 witness: the spec's partial-decrement scenario — product 1
decremented and retained, product 2's check fails, order CANCELLED, one
`order_failed` event with the insufficient-stock reason, handler returns
nil. -/
theorem C2_witness :
    (ProcessOrder noFaults msgPartialFail dbTwoProducts).db
      = { dbTwoProducts with
          products := stockAfter dbTwoProducts.products [⟨1, 2⟩],
          orders := setOrderStatus dbTwoProducts.orders 1 .CANCELLED }
    ∧ (ProcessOrder noFaults msgPartialFail dbTwoProducts).error = none
    ∧ (ProcessOrder noFaults msgPartialFail dbTwoProducts).events
        = [Event.failed 1 7 "alice@shop.example"
            (failReason (stockAfter dbTwoProducts.products [⟨1, 2⟩]) ⟨2, 100⟩)]
    ∧ orderStatus (ProcessOrder noFaults msgPartialFail dbTwoProducts).db 1
        = some .CANCELLED :=
  C2_failure_path noFaults msgPartialFail dbTwoProducts [⟨1, 2⟩] ⟨2, 100⟩ []
    "alice@shop.example" ⟨7, .PENDING, 4000⟩ rfl rfl (fun _ => rfl) (fun _ => rfl)
    rfl rfl rfl rfl (by decide) (by decide) (by decide) (by decide)

/-- C3: when every line item references an existing product with sufficient
locked stock, `ProcessOrder` commits all decrements and the CONFIRMED
status in one transaction and returns nil; the committed state does not
depend on the publish outcome (the publish happens strictly after the
commit), and when the publish succeeds exactly one `order_confirmed` event
carrying the order id, user id and the user's email is emitted. -/
theorem C3_success_path (f : Faults) (msg : OrderPlacedMessage) (db : DB)
    (email : String) (row : OrderRow)
    (hb : f.beginFail = false) (hq : ∀ j, f.stockQueryFail j = false)
    (hu : ∀ j, f.stockUpdateFail j = false)
    (hs : f.statusUpdateFail = false) (hc : f.commitFail = false)
    (he : f.emailFail = false)
    (hok : allItemsOk db.products msg.items = true)
    (hemail : alookup db.users msg.userId = some email)
    (horder : alookup db.orders msg.orderId = some row) :
    (ProcessOrder f msg db).db
      = { db with products := stockAfter db.products msg.items,
                  orders := setOrderStatus db.orders msg.orderId .CONFIRMED }
    ∧ (ProcessOrder f msg db).error = none
    ∧ orderStatus (ProcessOrder f msg db).db msg.orderId = some .CONFIRMED
    ∧ (f.publishFail = false →
        (ProcessOrder f msg db).events = [Event.confirmed msg.orderId msg.userId email])
    ∧ (f.publishFail = true → (ProcessOrder f msg db).events = []) := by
  rw [ProcessOrder_ok f msg db hb hq hu hok]
  unfold confirmTail
  simp only [hs, hc, he, Bool.false_eq_true, if_false]
  by_cases hp : f.publishFail
  · refine ⟨?_, ?_, ?_, ?_, ?_⟩ <;>
      simp [hp, hemail, orderStatus, alookup_setOrderStatus_self, horder]
  · refine ⟨?_, ?_, ?_, ?_, ?_⟩ <;>
      simp [hp, hemail, orderStatus, alookup_setOrderStatus_self, horder]

/-- C3 witness: the spec's success scenario — stock 5 decremented to 3,
order CONFIRMED, one `order_confirmed` event. -/
theorem C3_witness :
    (ProcessOrder noFaults msgTwoOfOne dbTwoProducts).db
      = { dbTwoProducts with
          products := stockAfter dbTwoProducts.products msgTwoOfOne.items,
          orders := setOrderStatus dbTwoProducts.orders 1 .CONFIRMED }
    ∧ (ProcessOrder noFaults msgTwoOfOne dbTwoProducts).error = none
    ∧ orderStatus (ProcessOrder noFaults msgTwoOfOne dbTwoProducts).db 1 = some .CONFIRMED
    ∧ (noFaults.publishFail = false →
        (ProcessOrder noFaults msgTwoOfOne dbTwoProducts).events
          = [Event.confirmed 1 7 "alice@shop.example"])
    ∧ (noFaults.publishFail = true →
        (ProcessOrder noFaults msgTwoOfOne dbTwoProducts).events = []) :=
  C3_success_path noFaults msgTwoOfOne dbTwoProducts "alice@shop.example"
    ⟨7, .PENDING, 4000⟩ rfl (fun _ => rfl) (fun _ => rfl) rfl rfl rfl
    (by decide) (by decide) (by decide)

/-- C4 counterexample: the claim "a failed commit — in either the success
or the failure branch — makes ProcessOrder return a non-nil handler error"
is false for the failure branch: when `failOrder`'s commit fails the error
is only logged, `ProcessOrder` still returns nil (so the message is acked,
not redelivered), and the order stays PENDING. -/
theorem C4_counterexample :
    (ProcessOrder { noFaults with cancelCommitFail := true } msgPartialFail dbTwoProducts).error
        = none
    ∧ (ProcessOrder { noFaults with cancelCommitFail := true } msgPartialFail dbTwoProducts).db
        = dbTwoProducts := by
  decide

/-- C4 (amended): any unexpected database error in `ProcessOrder`'s own
statement sequence — begin, the per-item stock query, the per-item stock
update, the CONFIRMED status update, the success-path commit — is returned
as a non-nil handler error with the open transaction rolled back, so no
stock decrement or status change persists; more generally every handler
error except the post-commit email-lookup error leaves the store untouched.
But a database error inside `failOrder` (the CANCELLED status update or the
failure-path commit) is only logged: `ProcessOrder` returns nil, nothing
persists, and the message is acknowledged instead of redelivered. -/
theorem C4_db_error_handling (f : Faults) (msg : OrderPlacedMessage) (db : DB) :
    (∀ e, (ProcessOrder f msg db).error = some e → e ≠ "failed to send email" →
        (ProcessOrder f msg db).db = db)
    ∧ (f.beginFail = true →
        (ProcessOrder f msg db).error = some "failed to start transaction"
        ∧ (ProcessOrder f msg db).db = db)
    ∧ ((∀ j, f.stockQueryFail j = false) → (∀ j, f.stockUpdateFail j = false) →
        f.beginFail = false → f.statusUpdateFail = false → f.commitFail = true →
        allItemsOk db.products msg.items = true →
        (ProcessOrder f msg db).error = some "failed to commit transaction"
        ∧ (ProcessOrder f msg db).db = db)
    ∧ ((∀ j, f.stockQueryFail j = false) → (∀ j, f.stockUpdateFail j = false) →
        f.beginFail = false → f.statusUpdateFail = true →
        allItemsOk db.products msg.items = true →
        (ProcessOrder f msg db).error = some "failed to update order status"
        ∧ (ProcessOrder f msg db).db = db)
    ∧ (∀ it rest2, msg.items = it :: rest2 → f.beginFail = false →
        f.stockQueryFail 0 = true →
        (ProcessOrder f msg db).error = some "failed to check stock"
        ∧ (ProcessOrder f msg db).db = db)
    ∧ (∀ it rest2, msg.items = it :: rest2 → f.beginFail = false →
        f.stockQueryFail 0 = false → f.stockUpdateFail 0 = true →
        itemOkB db.products it = true →
        (ProcessOrder f msg db).error = some "failed to update stock"
        ∧ (ProcessOrder f msg db).db = db)
    ∧ (∀ good bad rest2, msg.items = good ++ bad :: rest2 →
        (∀ j, f.stockQueryFail j = false) → (∀ j, f.stockUpdateFail j = false) →
        f.beginFail = false →
        allItemsOk db.products good = true →
        itemOkB (stockAfter db.products good) bad = false →
        (f.cancelStatusFail = true ∨ f.cancelCommitFail = true) →
        (ProcessOrder f msg db).error = none ∧ (ProcessOrder f msg db).db = db) := by
  refine ⟨?_, ?_, ?_, ?_, ?_, ?_, ?_⟩
  · intro e he hne
    by_cases hb : f.beginFail
    · simp [ProcessOrder, hb]
    · have hred : ProcessOrder f msg db = processItems f db msg 0 msg.items db := by
        simp [ProcessOrder, hb]
      rw [hred] at he ⊢
      exact processItems_error_db f db msg msg.items 0 db e he hne
  · intro hb
    constructor <;> simp [ProcessOrder, hb]
  · intro hq hu hb hs hc hok
    rw [ProcessOrder_ok f msg db hb hq hu hok]
    unfold confirmTail
    constructor <;> simp [hs, hc]
  · intro hq hu hb hs hok
    rw [ProcessOrder_ok f msg db hb hq hu hok]
    unfold confirmTail
    constructor <;> simp [hs]
  · intro it rest2 hitems hb hq0
    have hred : ProcessOrder f msg db = processItems f db msg 0 msg.items db := by
      simp [ProcessOrder, hb]
    rw [hred, hitems]
    constructor <;> simp [processItems, hq0]
  · intro it rest2 hitems hb hq0 hu0 hok
    rcases heq : alookup db.products it.productId with _ | p
    · rw [itemOkB, heq] at hok; cases hok
    · have hlt : ¬(p.stock < it.quantity) := by
        rw [itemOkB, heq] at hok; simpa using hok
      have hred : ProcessOrder f msg db = processItems f db msg 0 msg.items db := by
        simp [ProcessOrder, hb]
      rw [hred, hitems]
      constructor <;> simp [processItems, hq0, heq, hlt, hu0]
  · intro good bad rest2 hitems hq hu hb hgood hbad hcancel
    rw [ProcessOrder_fail f msg db good bad rest2 hitems hb hq hu hgood hbad]
    unfold failOrder
    rcases hcancel with hc1 | hc1
    · constructor <;> simp [hc1]
    · by_cases hc0 : f.cancelStatusFail
      · constructor <;> simp [hc0]
      · constructor <;> simp [hc0, hc1]

/-- C4 witness: a commit failure on the success path surfaces as a handler
error and persists nothing. -/
theorem C4_witness :
    (ProcessOrder { noFaults with commitFail := true } msgTwoOfOne dbTwoProducts).error
        = some "failed to commit transaction"
    ∧ (ProcessOrder { noFaults with commitFail := true } msgTwoOfOne dbTwoProducts).db
        = dbTwoProducts :=
  (C4_db_error_handling { noFaults with commitFail := true } msgTwoOfOne dbTwoProducts).2.2.1
    (fun _ => rfl) (fun _ => rfl) rfl rfl rfl (by decide)

/-- C5: the code bug the spec flags as "currently unguarded".  Order 1 is
already CONFIRMED (terminal) with stock left; redelivering its placement
message makes `ProcessOrder` decrement product 1's stock a second time,
from 3 to 1, violating the claim that a redelivered message for a terminal
order must not double-decrement stock. -/
theorem C5_double_decrement :
    orderStatus dbConfirmedStockLeft 1 = some .CONFIRMED
    ∧ productStock dbConfirmedStockLeft 1 = some 3
    ∧ productStock (ProcessOrder noFaults msgTwoOfOne dbConfirmedStockLeft).db 1 = some 1
    ∧ orderStatus (ProcessOrder noFaults msgTwoOfOne dbConfirmedStockLeft).db 1
        = some .CONFIRMED := by
  decide

/-- C6 counterexample: the claim "if publishing the confirmed outcome event
fails, the error is surfaced to the caller (ProcessOrder returns a non-nil
error)" is false: the code logs the publish error and deliberately returns
nil ("Don't return error - order is already confirmed"). -/
theorem C6_counterexample :
    (ProcessOrder { noFaults with publishFail := true } msgTwoOfOne dbTwoProducts).error = none
    ∧ orderStatus
        (ProcessOrder { noFaults with publishFail := true } msgTwoOfOne dbTwoProducts).db 1
        = some .CONFIRMED
    ∧ productStock
        (ProcessOrder { noFaults with publishFail := true } msgTwoOfOne dbTwoProducts).db 1
        = some 3 := by
  decide

/-- C6 (amended): when the success path has committed CONFIRMED and the
publish of the confirmed event then fails, the error is only logged:
`ProcessOrder` returns nil, no event is emitted, and the committed
CONFIRMED status and stock decrements are not reverted. -/
theorem C6_publish_failure (f : Faults) (msg : OrderPlacedMessage) (db : DB)
    (email : String) (row : OrderRow)
    (hb : f.beginFail = false) (hq : ∀ j, f.stockQueryFail j = false)
    (hu : ∀ j, f.stockUpdateFail j = false)
    (hs : f.statusUpdateFail = false) (hc : f.commitFail = false)
    (he : f.emailFail = false) (hp : f.publishFail = true)
    (hok : allItemsOk db.products msg.items = true)
    (hemail : alookup db.users msg.userId = some email)
    (horder : alookup db.orders msg.orderId = some row) :
    (ProcessOrder f msg db).error = none
    ∧ (ProcessOrder f msg db).db
      = { db with products := stockAfter db.products msg.items,
                  orders := setOrderStatus db.orders msg.orderId .CONFIRMED }
    ∧ orderStatus (ProcessOrder f msg db).db msg.orderId = some .CONFIRMED
    ∧ (ProcessOrder f msg db).events = [] := by
  rw [ProcessOrder_ok f msg db hb hq hu hok]
  unfold confirmTail
  simp only [hs, hc, he, hp, Bool.false_eq_true, if_false]
  refine ⟨?_, ?_, ?_, ?_⟩ <;>
    simp [hemail, orderStatus, alookup_setOrderStatus_self, horder]

/-- C6 witness: the amended behaviour at the concrete success scenario with
a failing publish. -/
theorem C6_witness :
    (ProcessOrder { noFaults with publishFail := true } msgTwoOfOne dbTwoProducts).error = none
    ∧ (ProcessOrder { noFaults with publishFail := true } msgTwoOfOne dbTwoProducts).db
      = { dbTwoProducts with
          products := stockAfter dbTwoProducts.products msgTwoOfOne.items,
          orders := setOrderStatus dbTwoProducts.orders 1 .CONFIRMED }
    ∧ orderStatus
        (ProcessOrder { noFaults with publishFail := true } msgTwoOfOne dbTwoProducts).db 1
        = some .CONFIRMED
    ∧ (ProcessOrder { noFaults with publishFail := true } msgTwoOfOne dbTwoProducts).events
        = [] :=
  C6_publish_failure { noFaults with publishFail := true } msgTwoOfOne dbTwoProducts
    "alice@shop.example" ⟨7, .PENDING, 4000⟩ rfl (fun _ => rfl) (fun _ => rfl)
    rfl rfl rfl rfl (by decide) (by decide) (by decide)

/-- C7: under distinct product ids, if every stock is non-negative then
after any sequence of placement messages processed sequentially by
`ProcessOrder` — each with any fault condition — every stock is still
non-negative, because each decrement by `q` is guarded by the
in-transaction check `locked stock ≥ q`. -/
theorem C7_stock_never_negative (steps : List (Faults × OrderPlacedMessage)) (db : DB)
    (hnd : (db.products.map Prod.fst).Nodup) (h0 : nonnegStocks db.products) :
    nonnegStocks (processSequence steps db).products := by
  induction steps generalizing db with
  | nil => exact h0
  | cons fm rest ih =>
    have hstep : nonnegStocks (ProcessOrder fm.1 fm.2 db).db.products := by
      by_cases hb : fm.1.beginFail
      · simpa [ProcessOrder, hb] using h0
      · have hred : ProcessOrder fm.1 fm.2 db = processItems fm.1 db fm.2 0 fm.2.items db := by
          simp [ProcessOrder, hb]
        rw [hred]
        exact processItems_nonneg fm.1 db fm.2 fm.2.items 0 db hnd h0 h0
    have hkeys : (ProcessOrder fm.1 fm.2 db).db.products.map Prod.fst
        = db.products.map Prod.fst := by
      by_cases hb : fm.1.beginFail
      · simp [ProcessOrder, hb]
      · have hred : ProcessOrder fm.1 fm.2 db = processItems fm.1 db fm.2 0 fm.2.items db := by
          simp [ProcessOrder, hb]
        rw [hred]
        exact processItems_keys fm.1 db fm.2 fm.2.items 0 db rfl
    show nonnegStocks (processSequence rest (ProcessOrder fm.1 fm.2 db).db).products
    exact ih (ProcessOrder fm.1 fm.2 db).db (by rw [hkeys]; exact hnd) hstep

/-- C7 witness: a success then a business failure over the two-product
store leave all stocks non-negative. -/
theorem C7_witness :
    nonnegStocks
      (processSequence [(noFaults, msgTwoOfOne), (noFaults, msgPartialFail)]
        dbTwoProducts).products :=
  C7_stock_never_negative [(noFaults, msgTwoOfOne), (noFaults, msgPartialFail)]
    dbTwoProducts (by decide) (by decide)

/-- C8: the broker acknowledgement policy of `RabbitMQ.Consume` — for every
delivered message, a nil handler return acknowledges and permanently
removes it, a non-nil return rejects it with requeue so it stays on the
queue and is redelivered; and with no redelivery ceiling, a message whose
handler always errors is still at the head of the queue after any number of
loop iterations. -/
theorem C8_ack_policy {α : Type} (handler : α → Option String) (m : α) (q : List α) :
    (handler m = none →
        handleDelivery handler m = .ack ∧ consumeStep handler (m :: q) = q)
    ∧ (∀ e, handler m = some e →
        handleDelivery handler m = .nackRequeue ∧ consumeStep handler (m :: q) = m :: q)
    ∧ (∀ (n : Nat) (e : String), handler m = some e →
        (consumeStep handler)^[n] (m :: q) = m :: q) := by
  refine ⟨fun h => ⟨?_, ?_⟩, fun e h => ⟨?_, ?_⟩, ?_⟩
  · simp [handleDelivery, h]
  · simp [consumeStep, h]
  · simp [handleDelivery, h]
  · simp [consumeStep, h]
  · intro n e h
    induction n with
    | zero => rfl
    | succ k ihk =>
      rw [Function.iterate_succ_apply, show consumeStep handler (m :: q) = m :: q by
        simp [consumeStep, h], ihk]

/-- C8 witness: a poison message (handler always errors on it) survives
five loop iterations at the head of the queue, and a message whose handler
succeeds is removed. -/
theorem C8_witness :
    (consumeStep (fun n : Nat => if n == 0 then some "parse error" else none))^[5] [0, 1]
        = [0, 1]
    ∧ consumeStep (fun n : Nat => if n == 0 then some "parse error" else none) [1, 0] = [0] :=
  ⟨(C8_ack_policy (fun n : Nat => if n == 0 then some "parse error" else none) 0 [1]).2.2
      5 "parse error" rfl,
   ((C8_ack_policy (fun n : Nat => if n == 0 then some "parse error" else none) 1 [0]).1
      rfl).2⟩

/-- When every requested product exists and no query faults, the producer's
validation loop returns the accumulated total of price × quantity. -/
theorem computeTotal_ok (f : OrderFaults) (ps : List (Nat × Product))
    (hq : ∀ i, f.queryFail i = false) (items : List OrderItemRequest) :
    ∀ (i : Nat) (acc : Rat),
      (∀ it ∈ items, (alookup ps it.productId).isSome) →
      computeTotal f ps i acc items
        = .ok (items.foldl
            (fun a it =>
              a + (((alookup ps it.productId).map Product.price).getD 0) * (it.quantity : Rat))
            acc) := by
  induction items with
  | nil => intro i acc _; rfl
  | cons it rest ih =>
    intro i acc hex
    rcases heq : alookup ps it.productId with _ | p
    · exact absurd (hex it (List.mem_cons_self _ _)) (by simp [heq])
    · simp only [computeTotal, hq i, Bool.false_eq_true, if_false, heq]
      rw [ih (i + 1) _ (fun it2 hm => hex it2 (List.mem_cons_of_mem it hm))]
      simp [heq]

/-- With no insert faults, the producer's insertion loop yields exactly one
line row per requested item with the snapshotted price. -/
theorem insertRows_ok (f : OrderFaults) (ps : List (Nat × Product)) (orderId : Nat)
    (hi : ∀ i, f.insertItemFail i = false) (items : List OrderItemRequest) :
    ∀ i, insertRows f ps orderId i items = some (lineRows ps orderId items) := by
  induction items with
  | nil => intro i; rfl
  | cons it rest ih =>
    intro i
    simp only [insertRows, hi i, Bool.false_eq_true, if_false, ih (i + 1)]
    rfl

/-- Whenever `CreateOrder` publishes a placement message, the corresponding
PENDING order header is already committed: the publish happens strictly
after the commit. -/
theorem CreateOrder_published_committed (f : OrderFaults) (userId : Nat)
    (req : CreateOrderRequest) (db : DB)
    (hfresh : hasKey db.orders db.nextOrderId = false)
    (m : OrderPlacedMessage) (hm : m ∈ (CreateOrder f userId req db).published) :
    alookup (CreateOrder f userId req db).db.orders m.orderId
      = some ⟨userId, .PENDING, m.totalAmount⟩ := by
  unfold CreateOrder at hm ⊢
  by_cases h1 : bindOk req
  · by_cases h2 : f.beginFail
    · simp [h1, h2] at hm
    · rcases hv : computeTotal f db.products 0 0 req.items with pid | _ | total
      · simp [h1, h2, hv] at hm
      · simp [h1, h2, hv] at hm
      · by_cases h3 : f.insertOrderFail
        · simp [h1, h2, hv, h3] at hm
        · rcases hr : insertRows f db.products db.nextOrderId 0 req.items with _ | rows
          · simp [h1, h2, hv, h3, hr] at hm
          · by_cases h4 : f.commitFail
            · simp [h1, h2, hv, h3, hr, h4] at hm
            · by_cases h5 : f.publishFail
              · simp [h1, h2, hv, h3, hr, h4, h5] at hm
              · simp only [h1, h2, hv, h3, h4, h5, hr, Bool.not_true, Bool.false_eq_true,
                  if_false, List.mem_singleton] at hm
                subst hm
                simp only [h1, h2, hv, h3, h4, h5, hr, Bool.not_true, Bool.false_eq_true,
                  if_false]
                exact alookup_append_fresh db.orders db.nextOrderId _ hfresh
  · simp [h1] at hm

/-- C9: `CreateOrder` inserts the PENDING order header and all of its lines
in one transaction and publishes the placement event only after the commit
(whenever a message is published, the committed PENDING header for it
already exists); if the publish then fails, the caller gets an error
response (HTTP 500, success=false), no placement message is emitted, and
the committed order persists as PENDING with all its lines intact. -/
theorem C9_publish_after_commit (f : OrderFaults) (userId : Nat)
    (req : CreateOrderRequest) (db : DB)
    (hbind : bindOk req = true) (hb : f.beginFail = false) (hq : ∀ i, f.queryFail i = false)
    (hio : f.insertOrderFail = false) (hii : ∀ i, f.insertItemFail i = false)
    (hc : f.commitFail = false) (hp : f.publishFail = true)
    (hex : ∀ it ∈ req.items, (alookup db.products it.productId).isSome)
    (hfresh : hasKey db.orders db.nextOrderId = false) :
    (CreateOrder f userId req db).status = 500
    ∧ (CreateOrder f userId req db).success = false
    ∧ (CreateOrder f userId req db).published = []
    ∧ alookup (CreateOrder f userId req db).db.orders db.nextOrderId
        = some ⟨userId, .PENDING, orderTotal db.products req.items⟩
    ∧ (CreateOrder f userId req db).db.orderItems
        = db.orderItems ++ lineRows db.products db.nextOrderId req.items
    ∧ ∀ (f2 : OrderFaults) (m : OrderPlacedMessage),
        m ∈ (CreateOrder f2 userId req db).published →
        alookup (CreateOrder f2 userId req db).db.orders m.orderId
          = some ⟨userId, .PENDING, m.totalAmount⟩ := by
  have hv := computeTotal_ok f db.products hq req.items 0 0 hex
  have hr := insertRows_ok f db.products db.nextOrderId hii req.items 0
  have hpub : ∀ (f2 : OrderFaults) (m : OrderPlacedMessage),
      m ∈ (CreateOrder f2 userId req db).published →
      alookup (CreateOrder f2 userId req db).db.orders m.orderId
        = some ⟨userId, .PENDING, m.totalAmount⟩ :=
    fun f2 m hm => CreateOrder_published_committed f2 userId req db hfresh m hm
  have hredf : CreateOrder f userId req db
      = { db := { db with
            orders := db.orders
              ++ [(db.nextOrderId, ⟨userId, .PENDING, orderTotal db.products req.items⟩)],
            orderItems := db.orderItems ++ lineRows db.products db.nextOrderId req.items,
            nextOrderId := db.nextOrderId + 1 },
          status := 500, success := false, published := [] } := by
    unfold CreateOrder
    simp only [hbind, hb, hio, hc, hp, hv, hr, Bool.not_true, Bool.false_eq_true, if_false,
      if_true]
    rfl
  rw [hredf]
  exact ⟨rfl, rfl, rfl, alookup_append_fresh db.orders db.nextOrderId _ hfresh, rfl, hpub⟩

/-- C9 witness: a valid one-item request over the two-product store with a
failing publish — committed PENDING order with its line, 500 response, no
event. -/
theorem C9_witness :
    (CreateOrder { noOrderFaults with publishFail := true } 7 ⟨[⟨1, 2⟩]⟩ dbTwoProducts).status
        = 500
    ∧ (CreateOrder { noOrderFaults with publishFail := true } 7 ⟨[⟨1, 2⟩]⟩ dbTwoProducts).success
        = false
    ∧ (CreateOrder { noOrderFaults with publishFail := true } 7
        ⟨[⟨1, 2⟩]⟩ dbTwoProducts).published = []
    ∧ alookup (CreateOrder { noOrderFaults with publishFail := true } 7
        ⟨[⟨1, 2⟩]⟩ dbTwoProducts).db.orders 2
        = some ⟨7, .PENDING, orderTotal dbTwoProducts.products [⟨1, 2⟩]⟩
    ∧ (CreateOrder { noOrderFaults with publishFail := true } 7
        ⟨[⟨1, 2⟩]⟩ dbTwoProducts).db.orderItems
        = dbTwoProducts.orderItems ++ lineRows dbTwoProducts.products 2 [⟨1, 2⟩]
    ∧ ∀ (f2 : OrderFaults) (m : OrderPlacedMessage),
        m ∈ (CreateOrder f2 7 ⟨[⟨1, 2⟩]⟩ dbTwoProducts).published →
        alookup (CreateOrder f2 7 ⟨[⟨1, 2⟩]⟩ dbTwoProducts).db.orders m.orderId
          = some ⟨7, .PENDING, m.totalAmount⟩ :=
  C9_publish_after_commit { noOrderFaults with publishFail := true } 7 ⟨[⟨1, 2⟩]⟩
    dbTwoProducts (by decide) rfl (fun _ => rfl) rfl (fun _ => rfl) rfl rfl
    (by decide) (by decide)

/-- C10: on the success path, if the post-commit lookup of the user's email
fails, `ProcessOrder` returns a non-nil handler error although the
transaction confirming the order and decrementing stock has already
committed, and no confirmed event is published in that execution; under the
broker policy the non-nil error means the message is rejected with requeue,
so it is redelivered with the order already CONFIRMED. -/
theorem C10_email_lookup_failure (f : Faults) (msg : OrderPlacedMessage) (db : DB)
    (row : OrderRow)
    (hb : f.beginFail = false) (hq : ∀ j, f.stockQueryFail j = false)
    (hu : ∀ j, f.stockUpdateFail j = false)
    (hs : f.statusUpdateFail = false) (hc : f.commitFail = false)
    (he : f.emailFail = true)
    (hok : allItemsOk db.products msg.items = true)
    (horder : alookup db.orders msg.orderId = some row) :
    (ProcessOrder f msg db).error = some "failed to send email"
    ∧ (ProcessOrder f msg db).db
      = { db with products := stockAfter db.products msg.items,
                  orders := setOrderStatus db.orders msg.orderId .CONFIRMED }
    ∧ orderStatus (ProcessOrder f msg db).db msg.orderId = some .CONFIRMED
    ∧ (ProcessOrder f msg db).events = []
    ∧ handleDelivery (fun m => (ProcessOrder f m db).error) msg = .nackRequeue := by
  have hcore : ProcessOrder f msg db
      = { db := { db with products := stockAfter db.products msg.items,
                          orders := setOrderStatus db.orders msg.orderId .CONFIRMED },
          error := some "failed to send email", events := [] } := by
    rw [ProcessOrder_ok f msg db hb hq hu hok]
    unfold confirmTail
    simp [hs, hc, he]
  refine ⟨by rw [hcore], by rw [hcore], ?_, by rw [hcore], ?_⟩
  · rw [hcore]
    simp [orderStatus, alookup_setOrderStatus_self, horder]
  · simp [handleDelivery, hcore]

/-- C10 witness: the concrete success scenario with a failing email lookup
— error surfaced, CONFIRMED committed, no event, message nacked for
redelivery. -/
theorem C10_witness :
    (ProcessOrder { noFaults with emailFail := true } msgTwoOfOne dbTwoProducts).error
        = some "failed to send email"
    ∧ (ProcessOrder { noFaults with emailFail := true } msgTwoOfOne dbTwoProducts).db
      = { dbTwoProducts with
          products := stockAfter dbTwoProducts.products msgTwoOfOne.items,
          orders := setOrderStatus dbTwoProducts.orders 1 .CONFIRMED }
    ∧ orderStatus
        (ProcessOrder { noFaults with emailFail := true } msgTwoOfOne dbTwoProducts).db 1
        = some .CONFIRMED
    ∧ (ProcessOrder { noFaults with emailFail := true } msgTwoOfOne dbTwoProducts).events = []
    ∧ handleDelivery
        (fun m => (ProcessOrder { noFaults with emailFail := true } m dbTwoProducts).error)
        msgTwoOfOne = .nackRequeue :=
  C10_email_lookup_failure { noFaults with emailFail := true } msgTwoOfOne dbTwoProducts
    ⟨7, .PENDING, 4000⟩ rfl (fun _ => rfl) (fun _ => rfl) rfl rfl rfl
    (by decide) (by decide)

